import Mathlib

/-!
Verification of the cppdf columnar engine (`df::Series` / `df::DataFrame`).

The definitions below are a shallow embedding of the null-aware variant of
`df.h` shipped with the demo target (the variant holding a `valid_` mask),
and of `dataframe/dataframe.h`.  A `Series` owns a data buffer `data_` and a
lazily grown validity mask `valid_`; both are modelled as Lean lists.  C++
`double` arithmetic is idealised as exact rational arithmetic (`ℚ`): every
property checked here is about which positions are read, which guards fire
and which divisor is used, not about rounding.  The `ExecPolicy` dispatch
(`with_policy`) only selects a `std::execution` mode for the bulk loops and
does not change any computed value, so the embedding evaluates every bulk
loop sequentially.  Fallible operations (`throw` in the C++) are modelled
with `Except`.
-/

namespace Df

/-- Error classes raised by the engine: `std::invalid_argument` for size
mismatches, `std::out_of_range` for a missing DataFrame column, and
`std::bad_cast` for a DataFrame column read at the wrong element type. -/
inductive DfError
  | invalidArgument
  | notFound
  | typeMismatch
deriving DecidableEq

/-- A `df::Series<T>`: the data buffer `data_` and the validity mask
`valid_` (a `std::vector<bool>` that starts empty and is grown lazily by
`set_null`). -/
structure Series (α : Type) where
  data_ : List α
  valid_ : List Bool
deriving DecidableEq

namespace Series

variable {α β γ : Type}

/-- The explicit constructor `Series(std::vector<T> data)`: the buffer is
taken over and the mask is default-constructed (empty). -/
def fromList (l : List α) : Series α := ⟨l, []⟩

/-- `Series::size()`, the length of `data_`. -/
def size (s : Series α) : Nat := s.data_.length

/-- `Series::set_null(idx)`: no-op on an empty buffer; otherwise, if
`idx >= valid_.size()`, `valid_` is resized to `max(idx+1, data_.size())`
padding with `true`, and then `valid_[idx]` is cleared. -/
def set_null (s : Series α) (idx : Nat) : Series α :=
  if s.data_.length = 0 then s
  else if s.valid_.length ≤ idx then
    ⟨s.data_,
      (s.valid_ ++ List.replicate (max (idx + 1) s.data_.length - s.valid_.length) true).set idx false⟩
  else
    ⟨s.data_, s.valid_.set idx false⟩

/-- `Series::is_null(idx)`: returns `true` whenever `idx >= valid_.size()`,
otherwise `!valid_[idx]`.  (This is the code as written; its own comment
says an index beyond the mask is "not null".) -/
def is_null (s : Series α) (idx : Nat) : Bool :=
  if h : idx < s.valid_.length then ! s.valid_.get ⟨idx, h⟩ else true

/-- `Series::null_count()`: `0` when the mask is empty, otherwise the number
of `false` entries of the whole mask. -/
def null_count (s : Series α) : Nat :=
  if s.valid_.length = 0 then 0 else s.valid_.countP (fun v => ! v)

/-- `Series::valid_count()`: `0` when the buffer is empty, otherwise the
number of `true` entries of the whole mask. -/
def valid_count (s : Series α) : Nat :=
  if s.data_.length = 0 then 0 else s.valid_.countP (fun v => v)

/-- `Series::sum()`: `nullopt` when `valid_count() == 0`; otherwise the
`transform_reduce` of `data_` zipped with `valid_`, an invalid position
contributing `T{}` (the additive identity). -/
def sum (s : Series ℚ) : Option ℚ :=
  if s.valid_count = 0 then none
  else some (List.zipWith (fun x v => if v then x else 0) s.data_ s.valid_).sum

/-- `Series::mean()`: `nullopt` when `valid_count() == 0` or `sum()` is
empty; otherwise `sum() / valid_count()`. -/
def mean (s : Series ℚ) : Option ℚ :=
  if s.valid_count = 0 then none
  else
    match s.sum with
    | none => none
    | some su => some (su / (s.valid_count : ℚ))

/-- `Series::variance()`: `nullopt` when `valid_count() == 0` or `mean()` is
empty; otherwise the `transform_reduce` of the squared deviations of EVERY
buffer element from `mean()` (the loop runs over `data_` alone, with no
mask), divided by `valid_count()`. -/
def variance (s : Series ℚ) : Option ℚ :=
  if s.valid_count = 0 then none
  else
    match s.mean with
    | none => none
    | some m => some ((s.data_.map (fun x => (x - m) * (x - m))).sum / (s.valid_count : ℚ))

/-- The value computed by the `std::transform_reduce` inside `Series::dot`:
the sum of elementwise products.  In the source this value is computed and
then discarded (see `dot`). -/
def dotReduction (s o : Series ℚ) : ℚ :=
  (List.zipWith (fun x y => x * y) s.data_ o.data_).sum

/-- `Series::dot(other)`: throws `std::invalid_argument` when the sizes
differ.  The non-throwing path calls `with_policy(...)` whose result is NOT
returned — the enclosing function body has no `return` statement, so
control falls off the end of a non-void function and the caller receives no
defined value.  That absent value is modelled as `none`. -/
def dot (s o : Series ℚ) : Except DfError (Option ℚ) :=
  if s.size ≠ o.size then Except.error DfError.invalidArgument
  else Except.ok none

/-- The monadic constructor `Series(other, func)`: the destination buffer is
sized to `other.size()` and filled with `func` applied elementwise, and the
destination mask is copied from `other.valid_`.  `other` is taken by const
reference and `transform_to` writes only into the destination. -/
def monadicMk (other : Series α) (f : α → β) : Series β :=
  ⟨other.data_.map f, other.valid_⟩

/-- The dyadic constructor `Series(lhs, rhs, func)`: throws
`std::invalid_argument` on a size mismatch; otherwise `data_` and `valid_`
are resized to `lhs.size()` (`vector<bool>::resize` value-initialises the
new mask entries to `false`), the first `lhs.valid_.size()` mask entries are
overwritten with the positionwise AND of the two masks, and the buffer is
filled with `func` applied elementwise.  The embedding is faithful whenever
that mask loop stays in bounds, i.e. when
`lhs.valid_.size() ≤ min(lhs.size(), rhs.valid_.size())`; outside that
region the C++ reads or writes out of bounds. -/
def dyadicMk (lhs : Series α) (rhs : Series β) (f : α → β → γ) : Except DfError (Series γ) :=
  if lhs.size ≠ rhs.size then Except.error DfError.invalidArgument
  else
    Except.ok
      ⟨List.zipWith f lhs.data_ rhs.data_,
        List.zipWith (fun a b => a && b) lhs.valid_ rhs.valid_
          ++ List.replicate (lhs.size - lhs.valid_.length) false⟩

/-- Modelled from the spec's words "the reduction of the values at valid
positions only": the sum of the buffer values at the positions the `is_null`
accessor reports as valid.  Used only to compare `sum` against the spec. -/
def validSum (s : Series ℚ) : ℚ :=
  (((List.range s.size).filter (fun i => ! s.is_null i)).map (fun i => s.data_.getD i 0)).sum

/-- A sequence of `set_null` calls applied in order. -/
def applyNulls (s : Series α) (idxs : List Nat) : Series α :=
  idxs.foldl set_null s

end Series

/-- The free operator `operator+(Series, Series)`, which builds a new Series
through the dyadic constructor with `x + y`. -/
def seriesAddSeries (a b : Series ℚ) : Except DfError (Series ℚ) :=
  a.dyadicMk b (fun x y => x + y)

/-- The free operator `operator+(Series, scalar)`.  The operand is passed by
const reference and only read, so the pair returns (operand after the call,
constructed result); the first component equals the operand by the data
flow of the monadic constructor. -/
def seriesAddScalar (s : Series ℚ) (v : ℚ) : Series ℚ × Series ℚ :=
  (s, s.monadicMk (fun x => x + v))

/-- The free operator `operator+(scalar, Series)` (scalar on the left). -/
def scalarAddSeries (v : ℚ) (s : Series ℚ) : Series ℚ × Series ℚ :=
  (s, s.monadicMk (fun x => v + x))

end Df

namespace Df

/-- Demo series for the null-skipping sum: `[1,2,3,4,5]` with positions 0
and 4 nulled (the repo's `SumIgnoresNulls` test input). -/
def demo15 : Series ℚ := (Series.fromList [1, 2, 3, 4, 5]).applyNulls [0, 4]

/-- Demo series for variance: `[2,4,4,4,5,5,7,9]` with position 2 nulled
(the repo's `VarianceIgnoresNulls` test input). -/
def demo8 : Series ℚ := (Series.fromList [2, 4, 4, 4, 5, 5, 7, 9]).set_null 2

/-- Demo operand `[1,2,3]` with position 0 nulled. -/
def demoA : Series ℚ := (Series.fromList [1, 2, 3]).set_null 0

/-- Demo operand `[4,5,6]` with position 2 nulled. -/
def demoB : Series ℚ := (Series.fromList [4, 5, 6]).set_null 2

/-- The closed set of element types the DataFrame demo stores (`typeid`
tags): `int` and `double`. -/
inductive ColType
  | cInt
  | cDouble
deriving DecidableEq

/-- The Lean carrier of each runtime element type (`double` idealised as
`ℚ`). -/
def Carrier : ColType → Type
  | ColType.cInt => ℤ
  | ColType.cDouble => ℚ

instance : (t : ColType) → DecidableEq (Carrier t)
  | ColType.cInt => inferInstanceAs (DecidableEq ℤ)
  | ColType.cDouble => inferInstanceAs (DecidableEq ℚ)

/-- A type-erased column handle (`WrappedSeries<T>` behind a `BaseSeries`
pointer): the runtime type tag together with the typed Series. -/
abbrev ColVal : Type := (t : ColType) × Series (Carrier t)

/-- `df::DataFrame`: the name → column map `cols_` (modelled as an
association list with unique names, which is what `emplace` maintains) and
the insertion order `col_order_`. -/
structure DataFrame where
  cols_ : List (String × ColVal)
  col_order_ : List String
deriving DecidableEq

/-- `unordered_map::find` by column name. -/
def lookupCol (name : String) : List (String × ColVal) → Option ColVal
  | [] => none
  | (n, cv) :: rest => if n = name then some cv else lookupCol name rest

namespace DataFrame

/-- A default-constructed DataFrame. -/
def empty : DataFrame := ⟨[], []⟩

/-- `DataFrame::length()`: `0` when there are no columns, otherwise the
size of the column `cols_.begin()` points at (all columns have the same
size in any state reachable through `add`, so the representative is
immaterial there). -/
def length (df : DataFrame) : Nat :=
  match df.cols_ with
  | [] => 0
  | (_, cv) :: _ => cv.2.size

/-- `DataFrame::width()`: the number of columns. -/
def width (df : DataFrame) : Nat := df.cols_.length

/-- `DataFrame::add(name, series)`: throws `std::invalid_argument` when
columns already exist and the new series' length differs from `length()`;
otherwise `emplace` inserts (a no-op when the name is already present,
in which case `col_order_` is not extended either). -/
def add (df : DataFrame) (name : String) (cv : ColVal) : Except DfError DataFrame :=
  if df.cols_ ≠ [] ∧ cv.2.size ≠ df.length then Except.error DfError.invalidArgument
  else if (lookupCol name df.cols_).isSome then Except.ok df
  else Except.ok ⟨df.cols_ ++ [(name, cv)], df.col_order_ ++ [name]⟩

/-- `DataFrame::column<T>(name)`: `std::out_of_range` when the name is
absent; otherwise a `dynamic_cast` to `WrappedSeries<T>` that throws
`std::bad_cast` when the stored runtime type tag differs from `T`, and
returns the stored typed Series when it matches. -/
def column (df : DataFrame) (t : ColType) (name : String) :
    Except DfError (Series (Carrier t)) :=
  match lookupCol name df.cols_ with
  | none => Except.error DfError.notFound
  | some cv =>
    if h : cv.1 = t then Except.ok (h ▸ cv.2) else Except.error DfError.typeMismatch

/-- One `add` call as a state step: a thrown error leaves the DataFrame
unchanged (the throw happens before `emplace` runs). -/
def addOrKeep (df : DataFrame) (req : String × ColVal) : DataFrame :=
  match df.add req.1 req.2 with
  | Except.ok d => d
  | Except.error _ => df

end DataFrame

/-- A DataFrame reached from the default-constructed one by a sequence of
`add` calls. -/
def buildDF (reqs : List (String × ColVal)) : DataFrame :=
  reqs.foldl DataFrame.addOrKeep DataFrame.empty

/-- Every stored column's size equals `length()`. -/
def InvDF (df : DataFrame) : Prop :=
  ∀ e, e ∈ df.cols_ → e.2.2.size = df.length

/-- Demo add sequence: an `int` column of length 2 then a `double` column
of length 2. -/
def reqsAB : List (String × ColVal) :=
  [("a", ⟨ColType.cInt, Series.fromList ([1, 2] : List ℤ)⟩),
   ("b", ⟨ColType.cDouble, Series.fromList ([3, 4] : List ℚ)⟩)]

/-- The second entry `reqsAB` stores. -/
def entryB : String × ColVal :=
  ("b", ⟨ColType.cDouble, Series.fromList ([3, 4] : List ℚ)⟩)

/-- A column of length 3, inconsistent with `reqsAB`. -/
def colBad : ColVal := ⟨ColType.cInt, Series.fromList ([1, 2, 3] : List ℤ)⟩

/-- A fresh column name. -/
def nameC : String := "c"

/-- Demo add sequence holding a single empty `int` column. -/
def reqsEmptyCol : List (String × ColVal) :=
  [("c1", ⟨ColType.cInt, Series.fromList ([] : List ℤ)⟩)]

end Df

namespace Df

/- Helper lemmas (shared). -/

/-- Normal form for `is_null`: a missing mask entry and a `false` mask entry
both read as null. -/
theorem Series.is_null_eq {α : Type} (s : Series α) (i : Nat) :
    s.is_null i = ! s.valid_.getD i false := by
  unfold Series.is_null
  rcases Nat.lt_or_ge i s.valid_.length with h | h
  · rw [dif_pos h, List.getD_eq_getElem?_getD, List.getElem?_eq_getElem h]
    rfl
  · rw [dif_neg (Nat.not_lt.mpr h), List.getD_eq_getElem?_getD,
      List.getElem?_eq_none h]
    rfl

/-- `set_null` never touches the data buffer. -/
theorem Series.set_null_data {α : Type} (s : Series α) (i : Nat) :
    (s.set_null i).data_ = s.data_ := by
  unfold Series.set_null
  split
  · rfl
  · split <;> rfl

/-- C10: for every Series and every index `i`, `set_null(i)` leaves the data
buffer entirely unchanged — `size()` is the same and the stored value read
at every position `j` is identical — only the validity mask is modified. -/
theorem set_null_frame {α : Type} (s : Series α) (i : Nat) :
    (s.set_null i).size = s.size ∧
    ∀ j, (s.set_null i).data_.get? j = s.data_.get? j := by
  constructor
  · show (s.set_null i).data_.length = s.data_.length
    rw [Series.set_null_data]
  · intro j
    rw [Series.set_null_data]

/-- C2 evaluation: on the never-nulled series `[1,2,3,4,5]` (the repo's own
`MeanCalculation` test input) the mask is empty, so `valid_count()` and
`null_count()` are both `0` and their sum is `0`, not the length `5`. -/
theorem valid_plus_null_fresh :
    (Series.fromList [(1 : ℚ), 2, 3, 4, 5]).size = 5 ∧
    (Series.fromList [(1 : ℚ), 2, 3, 4, 5]).valid_count +
      (Series.fromList [(1 : ℚ), 2, 3, 4, 5]).null_count = 0 := by
  constructor <;> rfl

/-- C3 evaluation: `is_null(0)` on the fresh in-bounds series `[1,2,3,4,5]`
(mask empty) returns `true` (null), though the claim, the function's own
comment and the aggregate tests require `false` (valid); and on a series of
length 2 whose mask was grown to 6 entries by `set_null(5)`, `is_null(3)`
returns `false` (valid) for an index at or beyond the data length, where
the claim requires null. -/
theorem is_null_unmasked_inbounds :
    ((Series.fromList [(1 : ℚ), 2, 3, 4, 5]).is_null 0 = true ∧
      0 < (Series.fromList [(1 : ℚ), 2, 3, 4, 5]).size) ∧
    (((Series.fromList [(1 : ℚ), 2]).set_null 5).is_null 3 = false ∧
      ((Series.fromList [(1 : ℚ), 2]).set_null 5).size ≤ 3) := by
  refine ⟨⟨?_, ?_⟩, ?_, ?_⟩ <;> decide

/-- C5: for every Series `s` and scalar `v`, both `s + v` and `v + s`
produce a newly constructed Series whose entry at every position `i` is
`s[i] + v` (resp. `v + s[i]`), with the same length and the same validity
mask as `s`, while the operand `s` itself is unchanged (first component of
the pair, the operand after the call). -/
theorem series_add_scalar_pure (s : Series ℚ) (v : ℚ) :
    (seriesAddScalar s v).1 = s ∧
    (seriesAddScalar s v).2.size = s.size ∧
    (seriesAddScalar s v).2.valid_ = s.valid_ ∧
    (∀ i : Nat, (seriesAddScalar s v).2.data_[i]? = (s.data_[i]?).map (fun x => x + v)) ∧
    (scalarAddSeries v s).1 = s ∧
    (scalarAddSeries v s).2.valid_ = s.valid_ ∧
    (∀ i : Nat, (scalarAddSeries v s).2.data_[i]? = (s.data_[i]?).map (fun x => v + x)) := by
  refine ⟨rfl, ?_, rfl, ?_, rfl, rfl, ?_⟩
  · show (s.data_.map (fun x => x + v)).length = s.data_.length
    exact List.length_map s.data_ _
  · intro i
    exact List.getElem?_map _ s.data_ i
  · intro i
    exact List.getElem?_map _ s.data_ i

/-- C6 evaluation: on the repo's own `VarianceIgnoresNulls` test input
`[2,4,4,4,5,5,7,9]` with position 2 nulled, `variance()` evaluates to
`1576/343 ≈ 4.595`: the loop sums the squared deviations of all 8 buffer
values (including the nulled one) from the null-skipping mean `36/7`, then
divides by `valid_count() = 7`.  This differs both from the claimed `4.0`
(what the test asserts) and from the population variance `216/49 ≈ 4.408`
of the 7 valid values, so `stddev()` is `√(1576/343) ≠ 2.0` as well. -/
theorem variance_with_null :
    demo8.variance = some (1576 / 343) ∧
    ((1576 : ℚ) / 343 ≠ 4) ∧
    ((1576 : ℚ) / 343 ≠ 216 / 49) := by
  refine ⟨?_, by norm_num, by norm_num⟩
  have hds : demo8 = Series.mk [2, 4, 4, 4, 5, 5, 7, 9]
      [true, true, false, true, true, true, true, true] := rfl
  rw [hds]
  unfold Series.variance Series.mean Series.sum Series.valid_count
  simp only [List.countP_cons, List.countP_nil, List.length_cons, List.length_nil,
    List.zipWith_cons_cons, List.zipWith_nil_right, List.sum_cons, List.sum_nil,
    List.map_cons, List.map_nil]
  norm_num

/-- C7 evaluation: `dot` throws `std::invalid_argument` exactly when the
sizes differ, as claimed; but on the non-throwing path (shown here at two
empty series) the function returns no value at all — the body computes the
`transform_reduce` (whose value at two empty series is the identity `0`,
witnessed by `dotReduction`) and discards it, since the body has no
`return` statement. -/
theorem dot_missing_return :
    ((Series.fromList ([] : List ℚ)).dot (Series.fromList ([] : List ℚ)) =
      Except.ok none) ∧
    (∀ v : ℚ, (Series.fromList ([] : List ℚ)).dot (Series.fromList ([] : List ℚ)) ≠
      Except.ok (some v)) ∧
    ((Series.fromList [(1 : ℚ), 2]).dot (Series.fromList [(1 : ℚ)]) =
      Except.error DfError.invalidArgument) ∧
    Series.dotReduction (Series.fromList []) (Series.fromList []) = 0 := by
  refine ⟨rfl, ?_, rfl, rfl⟩
  intro v h
  exact Option.noConfusion (Except.ok.inj h)

/-- The masked `transform_reduce` of `sum` as a sum over the index range,
each index contributing its value when its mask entry is set. -/
theorem zip_ite_sum (d : List ℚ) : ∀ (v : List Bool), d.length ≤ v.length →
    (List.zipWith (fun x b => if b then x else 0) d v).sum =
      ((List.range d.length).map
        (fun i => if v.getD i false then d.getD i 0 else 0)).sum := by
  induction d with
  | nil =>
    intro v h
    simp
  | cons x xs ih =>
    intro v h
    cases v with
    | nil => exact absurd h (by simp)
    | cons b bs =>
      have hrec := ih bs (Nat.le_of_succ_le_succ h)
      show (if b then x else 0) + (List.zipWith (fun x b => if b then x else 0) xs bs).sum = _
      rw [List.length_cons, List.range_succ_eq_map, List.map_cons, List.map_map,
        List.sum_cons]
      exact congrArg (fun z => (if b then x else 0) + z) hrec

/-- Summing a filtered-then-mapped list equals summing the map that sends
rejected elements to `0`. -/
theorem filter_map_sum_ite (g : Nat → ℚ) (p : Nat → Bool) :
    ∀ l : List Nat,
      ((l.filter p).map g).sum = (l.map (fun i => if p i then g i else 0)).sum := by
  intro l
  induction l with
  | nil => rfl
  | cons a l ih =>
    rw [List.map_cons, List.sum_cons, List.filter_cons]
    cases hp : p a with
    | false => simp [ih]
    | true => simp [ih]

/-- The constructor leaves the mask empty, so every freshly built Series
satisfies the mask bound hypothesis of `sum_spec`. -/
theorem fromList_wf {α : Type} (l : List α) :
    (Series.fromList l).valid_.length = 0 ∨
      (Series.fromList l).data_.length ≤ (Series.fromList l).valid_.length :=
  Or.inl rfl

/-- `set_null` preserves the mask bound: an empty mask either stays empty
(no-op on empty data) or is grown to at least the buffer length, and a
full-length mask never shrinks. -/
theorem set_null_wf {α : Type} (s : Series α) (i : Nat)
    (h : s.valid_.length = 0 ∨ s.data_.length ≤ s.valid_.length) :
    (s.set_null i).valid_.length = 0 ∨
      (s.set_null i).data_.length ≤ (s.set_null i).valid_.length := by
  unfold Series.set_null
  split
  · exact h
  · split
    · next hgrow =>
      right
      show s.data_.length ≤
        ((s.valid_ ++ List.replicate (max (i + 1) s.data_.length - s.valid_.length) true).set
          i false).length
      rw [List.length_set, List.length_append, List.length_replicate]
      have hla : s.valid_.length ≤ max (i + 1) s.data_.length :=
        Nat.le_trans (Nat.le_trans hgrow (Nat.le_succ i)) (Nat.le_max_left _ _)
      rw [Nat.add_sub_cancel' hla]
      exact Nat.le_max_right _ _
    · next hkeep =>
      right
      show s.data_.length ≤ (s.valid_.set i false).length
      rw [List.length_set]
      rcases h with h0 | h1
      · have hi : i < s.valid_.length := Nat.lt_of_not_le hkeep
        rw [h0] at hi
        exact absurd hi (Nat.not_lt_zero i)
      · exact h1

/-- Every state a sequence of `set_null` calls reaches from a well-formed
state is well-formed, so the hypothesis of `sum_spec` holds in every state
reachable from the constructor. -/
theorem applyNulls_wf {α : Type} (idxs : List Nat) : ∀ (s : Series α),
    (s.valid_.length = 0 ∨ s.data_.length ≤ s.valid_.length) →
    ((s.applyNulls idxs).valid_.length = 0 ∨
      (s.applyNulls idxs).data_.length ≤ (s.applyNulls idxs).valid_.length) := by
  induction idxs with
  | nil =>
    intro s h
    exact h
  | cons i rest ih =>
    intro s h
    exact ih (s.set_null i) (set_null_wf s i h)

/-- C1: for every Series whose state the C++ can reach without reading past
the mask (the mask is either still empty or at least as long as the
buffer — by `fromList_wf` and `applyNulls_wf` this covers every state the
constructor and `set_null` calls reach), `sum()` returns `nullopt` exactly
when `valid_count() == 0`, and otherwise returns the reduction of the
values at the positions `is_null` reports valid, the other positions
contributing the additive identity. -/
theorem sum_spec (s : Series ℚ)
    (hWF : s.valid_.length = 0 ∨ s.data_.length ≤ s.valid_.length) :
    (s.sum = none ↔ s.valid_count = 0) ∧
    (s.valid_count ≠ 0 → s.sum = some s.validSum) := by
  constructor
  · unfold Series.sum
    by_cases h : s.valid_count = 0
    · simp [h]
    · simp [h]
  · intro h
    have hlen : s.data_.length ≤ s.valid_.length := by
      rcases hWF with h0 | h1
      · exfalso
        apply h
        unfold Series.valid_count
        rw [List.length_eq_zero.mp h0]
        simp
      · exact h1
    unfold Series.sum
    rw [if_neg h]
    refine congrArg some ?_
    have hpred : (fun i => ! s.is_null i) = (fun i => s.valid_.getD i false) := by
      funext i
      rw [Series.is_null_eq, Bool.not_not]
    unfold Series.validSum
    rw [hpred, filter_map_sum_ite]
    exact zip_ite_sum s.data_ s.valid_ hlen

/-- Witness for `sum_spec` at the repo's `SumIgnoresNulls` input. -/
theorem sum_spec_w :
    (demo15.valid_.length = 0 ∨ demo15.data_.length ≤ demo15.valid_.length) ∧
    demo15.sum = some demo15.validSum :=
  ⟨by decide, (sum_spec demo15 (by decide)).2 (by decide)⟩

/-- Reading an appended list below the left length reads the left list. -/
theorem getD_append_lt {α : Type} (l₁ l₂ : List α) (d : α) :
    ∀ i, i < l₁.length → (l₁ ++ l₂).getD i d = l₁.getD i d := by
  induction l₁ with
  | nil =>
    intro i h
    exact absurd h (by simp)
  | cons a t ih =>
    intro i h
    cases i with
    | zero => rfl
    | succ n => exact ih n (Nat.lt_of_succ_lt_succ h)

/-- Reading an appended list at or beyond the left length reads the right
list. -/
theorem getD_append_ge {α : Type} (l₁ l₂ : List α) (d : α) :
    ∀ i, l₁.length ≤ i → (l₁ ++ l₂).getD i d = l₂.getD (i - l₁.length) d := by
  induction l₁ with
  | nil =>
    intro i _
    rfl
  | cons a t ih =>
    intro i h
    cases i with
    | zero => exact absurd h (by simp)
    | succ n =>
      rw [List.length_cons, Nat.succ_sub_succ]
      exact ih n (Nat.le_of_succ_le_succ h)

/-- Reading past the end of a list gives the fallback. -/
theorem getD_len_le {α : Type} (l : List α) (i : Nat) (d : α) (h : l.length ≤ i) :
    l.getD i d = d := by
  rw [List.getD_eq_getElem?_getD, List.getElem?_eq_none h]
  rfl

/-- Reading a replicated `false` list with fallback `false` always gives
`false`. -/
theorem getD_replicate_false (k : Nat) :
    ∀ m, (List.replicate k false).getD m false = false := by
  induction k with
  | zero => intro m; rfl
  | succ n ih =>
    intro m
    cases m with
    | zero => rfl
    | succ j => exact ih j

/-- Reading a `zipWith` inside both bounds applies the function to the two
reads. -/
theorem getD_zipWith {α β γ : Type} (f : α → β → γ) :
    ∀ (as : List α) (bs : List β) (i : Nat) (da : α) (db : β) (dc : γ),
      i < as.length → i < bs.length →
      (List.zipWith f as bs).getD i dc = f (as.getD i da) (bs.getD i db) := by
  intro as
  induction as with
  | nil =>
    intro bs i da db dc h1 _
    exact absurd h1 (by simp)
  | cons a t ih =>
    intro bs i da db dc h1 h2
    cases bs with
    | nil => exact absurd h2 (by simp)
    | cons b u =>
      cases i with
      | zero => rfl
      | succ n =>
        exact ih u n da db dc (Nat.lt_of_succ_lt_succ h1) (Nat.lt_of_succ_lt_succ h2)

/-- C4: for equal-length Series `a` and `b` in any state where the C++ mask
loop stays in bounds (`a.valid_.size() ≤ min(a.size(), b.valid_.size())`,
which it does in every state the dyadic constructor evaluates without
undefined behaviour), `a + b` succeeds with a Series whose entry at every
in-range position is `a[i] + b[i]`, and whose positions are null exactly
when null in `a` or in `b` — the validity mask is the positionwise AND of
the operands' validity. -/
theorem series_add_series_spec (a b : Series ℚ)
    (hLen : a.size = b.size)
    (hA : a.valid_.length ≤ a.size)
    (hB : a.valid_.length ≤ b.valid_.length) :
    ∃ c, seriesAddSeries a b = Except.ok c ∧
      c.size = a.size ∧
      (∀ i, i < a.size → c.data_.getD i 0 = a.data_.getD i 0 + b.data_.getD i 0) ∧
      (∀ i, c.is_null i = (a.is_null i || b.is_null i)) := by
  have hLen' : a.data_.length = b.data_.length := hLen
  refine ⟨⟨List.zipWith (fun x y => x + y) a.data_ b.data_,
    List.zipWith (fun p q => p && q) a.valid_ b.valid_
      ++ List.replicate (a.size - a.valid_.length) false⟩, ?_, ?_, ?_, ?_⟩
  · unfold seriesAddSeries Series.dyadicMk
    rw [if_neg (by simp [hLen])]
  · show (List.zipWith (fun x y => x + y) a.data_ b.data_).length = a.data_.length
    rw [List.length_zipWith, hLen', Nat.min_self]
  · intro i hi
    have hib : i < b.data_.length := hLen' ▸ hi
    exact getD_zipWith (fun x y => x + y) a.data_ b.data_ i 0 0 0 hi hib
  · intro i
    have hzlen : (List.zipWith (fun p q => p && q) a.valid_ b.valid_).length
        = a.valid_.length := by
      rw [List.length_zipWith]
      exact Nat.min_eq_left hB
    rw [Series.is_null_eq, Series.is_null_eq, Series.is_null_eq]
    show (! (List.zipWith (fun p q => p && q) a.valid_ b.valid_
        ++ List.replicate (a.size - a.valid_.length) false).getD i false)
      = (! a.valid_.getD i false || ! b.valid_.getD i false)
    rcases Nat.lt_or_ge i a.valid_.length with hi | hi
    · rw [getD_append_lt _ _ _ i (hzlen ▸ hi),
        getD_zipWith (fun p q => p && q) a.valid_ b.valid_ i false false false hi
          (Nat.lt_of_lt_of_le hi hB)]
      cases a.valid_.getD i false <;> cases b.valid_.getD i false <;> rfl
    · rw [getD_append_ge _ _ _ i (hzlen ▸ hi), getD_replicate_false,
        getD_len_le a.valid_ i false hi]
      rfl

/-- Witness for `series_add_series_spec` at `[1,2,3]` (position 0 nulled)
plus `[4,5,6]` (position 2 nulled). -/
theorem series_add_series_spec_w :
    (demoA.size = demoB.size ∧ demoA.valid_.length ≤ demoA.size ∧
      demoA.valid_.length ≤ demoB.valid_.length) ∧
    ∃ c, seriesAddSeries demoA demoB = Except.ok c ∧
      c.size = demoA.size ∧
      (∀ i, i < demoA.size →
        c.data_.getD i 0 = demoA.data_.getD i 0 + demoB.data_.getD i 0) ∧
      (∀ i, c.is_null i = (demoA.is_null i || demoB.is_null i)) :=
  ⟨⟨by decide, by decide, by decide⟩,
    series_add_series_spec demoA demoB (by decide) (by decide) (by decide)⟩

/-- Reduction of `column` when the name is absent. -/
theorem column_lookup_none (df : DataFrame) (t : ColType) (name : String)
    (h : lookupCol name df.cols_ = none) :
    df.column t name = Except.error DfError.notFound := by
  unfold DataFrame.column
  rw [h]

/-- Reduction of `column` when the name is stored. -/
theorem column_lookup_some (df : DataFrame) (t : ColType) (name : String) (cv : ColVal)
    (h : lookupCol name df.cols_ = some cv) :
    df.column t name =
      if hh : cv.1 = t then Except.ok (hh ▸ cv.2)
      else Except.error DfError.typeMismatch := by
  unfold DataFrame.column
  rw [h]

/-- C8: `column<T>(name)` reports not-found exactly when no column of that
name is stored, reports type-mismatch — a distinct error — exactly when a
column of that name is stored with a different runtime element type, and
returns a Series exactly when the stored entry carries tag `T` and that
very Series: it never reinterprets a column at the wrong type. -/
theorem column_lookup_spec (df : DataFrame) (t : ColType) (name : String) :
    (df.column t name = Except.error DfError.notFound ↔
      lookupCol name df.cols_ = none) ∧
    (df.column t name = Except.error DfError.typeMismatch ↔
      ∃ cv, lookupCol name df.cols_ = some cv ∧ cv.1 ≠ t) ∧
    (∀ s, df.column t name = Except.ok s ↔
      lookupCol name df.cols_ = some ⟨t, s⟩) := by
  cases hl : lookupCol name df.cols_ with
  | none =>
    rw [column_lookup_none df t name hl]
    refine ⟨by simp, by simp, ?_⟩
    intro s
    simp
  | some cv =>
    obtain ⟨u, sv⟩ := cv
    rw [column_lookup_some df t name ⟨u, sv⟩ hl]
    dsimp only
    by_cases ht : u = t
    · subst ht
      rw [dif_pos rfl]
      refine ⟨by simp, ?_, ?_⟩
      · constructor
        · intro h
          exact absurd h (by simp)
        · rintro ⟨cv, hcv, hne⟩
          rw [Option.some.injEq] at hcv
          exact (hne (congrArg Sigma.fst hcv).symm).elim
      · intro s
        constructor
        · intro h
          rw [Except.ok.injEq] at h
          rw [← h]
        · intro h
          rw [Option.some.injEq] at h
          rw [Sigma.mk.inj_iff] at h
          rw [eq_of_heq h.2]
    · rw [dif_neg ht]
      refine ⟨by simp, ?_, ?_⟩
      · constructor
        · intro _
          exact ⟨⟨u, sv⟩, rfl, ht⟩
        · intro _
          rfl
      · intro s
        constructor
        · intro h
          exact absurd h (by simp)
        · intro h
          rw [Option.some.injEq, Sigma.mk.inj_iff] at h
          exact absurd h.1 ht

/-- C9 counterexample: after adding a single zero-length `int` column, a
column exists (`width() == 1`) yet `length() == 0` — the claimed
equivalence between `length() == 0` and the absence of columns fails. -/
theorem dataframe_length_cex :
    ¬ ((buildDF reqsEmptyCol).length = 0 ↔ (buildDF reqsEmptyCol).width = 0) := by
  decide

/-- C9 amended: in every DataFrame reachable by a sequence of `add` calls,
`length()` is `0` when no columns exist, and every stored column's size
equals `length()` (which can be `0` with columns present, when every column
is empty); `add` preserves this by rejecting with `std::invalid_argument`
any series whose size differs from `length()` while columns exist. -/
theorem dataframe_add_invariant :
    (∀ reqs, ((buildDF reqs).cols_ = [] → (buildDF reqs).length = 0) ∧
      ∀ e, e ∈ (buildDF reqs).cols_ → e.2.2.size = (buildDF reqs).length) ∧
    (∀ (df : DataFrame) (name : String) (cv : ColVal),
      df.cols_ ≠ [] → cv.2.size ≠ df.length →
      df.add name cv = Except.error DfError.invalidArgument) := by
  have hstep : ∀ (df : DataFrame) (req : String × ColVal),
      InvDF df → InvDF (df.addOrKeep req) := by
    intro df req hInv
    obtain ⟨name, cv⟩ := req
    by_cases hg : df.cols_ ≠ [] ∧ cv.2.size ≠ df.length
    · have hkeep : df.addOrKeep (name, cv) = df := by
        unfold DataFrame.addOrKeep DataFrame.add
        rw [if_pos hg]
      rw [hkeep]
      exact hInv
    · by_cases hl : (lookupCol name df.cols_).isSome
      · have hkeep : df.addOrKeep (name, cv) = df := by
          unfold DataFrame.addOrKeep DataFrame.add
          rw [if_neg hg, if_pos hl]
        rw [hkeep]
        exact hInv
      · have hnew : df.addOrKeep (name, cv)
            = ⟨df.cols_ ++ [(name, cv)], df.col_order_ ++ [name]⟩ := by
          unfold DataFrame.addOrKeep DataFrame.add
          rw [if_neg hg, if_neg hl]
        rw [hnew]
        intro e he
        cases hc : df.cols_ with
        | nil =>
          rw [hc] at he
          rw [List.nil_append, List.mem_singleton] at he
          subst he
          rfl
        | cons c rest =>
          obtain ⟨cn, cvc⟩ := c
          have hA : df.cols_ ≠ [] := by
            rw [hc]
            exact List.cons_ne_nil (cn, cvc) rest
          have hsz : cv.2.size = df.length := by
            by_contra hB
            exact hg ⟨hA, hB⟩
          have hdf : df.length = cvc.2.size := by
            unfold DataFrame.length
            rw [hc]
          have hlen2 : DataFrame.length
              ⟨(cn, cvc) :: rest ++ [(name, cv)], df.col_order_ ++ [name]⟩
              = cvc.2.size := rfl
          rw [hlen2]
          rw [hc] at he
          rw [List.cons_append, List.mem_cons] at he
          rcases he with he | he
          · subst he
            rfl
          · rw [List.mem_append] at he
            rcases he with he | he
            · have := hInv e (by rw [hc]; exact List.mem_cons_of_mem (cn, cvc) he)
              rw [this]
              exact hdf
            · rw [List.mem_singleton] at he
              subst he
              rw [← hdf]
              exact hsz
  have hloop : ∀ (reqs : List (String × ColVal)) (df : DataFrame),
      InvDF df → InvDF (reqs.foldl DataFrame.addOrKeep df) := by
    intro reqs
    induction reqs with
    | nil =>
      intro df h
      exact h
    | cons r rs ih =>
      intro df h
      exact ih (df.addOrKeep r) (hstep df r h)
  constructor
  · intro reqs
    constructor
    · intro h
      unfold DataFrame.length
      rw [h]
    · exact hloop reqs DataFrame.empty (by intro e he; exact absurd he (by simp [DataFrame.empty]))
  · intro df name cv h1 h2
    unfold DataFrame.add
    rw [if_pos ⟨h1, h2⟩]

/-- Witness for `dataframe_add_invariant`: the stored column of `reqsAB`
named by `entryB` has the common length, and a third column of a different
length is rejected. -/
theorem dataframe_add_invariant_w :
    (entryB ∈ (buildDF reqsAB).cols_ ∧ entryB.2.2.size = (buildDF reqsAB).length) ∧
    ((buildDF reqsAB).cols_ ≠ [] ∧ colBad.2.size ≠ (buildDF reqsAB).length ∧
      (buildDF reqsAB).add nameC colBad = Except.error DfError.invalidArgument) :=
  ⟨⟨by decide, (dataframe_add_invariant.1 reqsAB).2 entryB (by decide)⟩,
    ⟨by decide, by decide,
      dataframe_add_invariant.2 (buildDF reqsAB) nameC colBad (by decide) (by decide)⟩⟩

end Df
